import Mathlib

/-!
Shallow embedding of the user-registration service (server.js, user.js):
input validation helpers, the sanitizer, the User model hooks and the
register / login / list / delete request handlers, together with proofs
of the specification claims about them.

JavaScript strings are modelled as Lean `String`; `undefined`/non-string
request-body fields are modelled by the `JsVal` type.  Character classes
from the regular expressions are expressed through `Char.toNat` codes
(32 = space, 9 = tab, 10 = LF, 13 = CR, 11 = VT, 12 = FF, 60 = less-than,
62 = greater-than, 39 = apostrophe, 34 = double quote, 95 = underscore).
-/

namespace ISProject

/-- Whitespace recognised by `String.prototype.trim` (ASCII subset:
space, tab, line feed, carriage return, vertical tab, form feed). -/
def isJsWs (c : Char) : Bool :=
  c.toNat == 32 || c.toNat == 9 || c.toNat == 10 || c.toNat == 13 ||
  c.toNat == 11 || c.toNat == 12

/-- Model of JavaScript `trim()` on the character list: drop leading and
trailing whitespace. -/
def jsTrimList (l : List Char) : List Char :=
  ((l.dropWhile isJsWs).reverse.dropWhile isJsWs).reverse

/-- Model of JavaScript `String.prototype.trim`. -/
def jsTrim (s : String) : String :=
  String.mk (jsTrimList s.data)

/-- The regex class `[a-zA-Z]` (codes 97-122 and 65-90). -/
def isAsciiLetter (c : Char) : Bool :=
  (97 ≤ c.toNat && c.toNat ≤ 122) || (65 ≤ c.toNat && c.toNat ≤ 90)

/-- The regex class `[0-9]` (codes 48-57). -/
def isAsciiDigit (c : Char) : Bool :=
  48 ≤ c.toNat && c.toNat ≤ 57

/-- The regex class `[a-zA-Z0-9_]` used for the tail of a username
(95 is the underscore). -/
def goodChar (c : Char) : Bool :=
  isAsciiLetter c || isAsciiDigit c || c.toNat == 95

/-- Test of the username pattern: a letter followed by letters, digits
and underscores, anchored at both ends. -/
def usernameRegexTest (l : List Char) : Bool :=
  match l with
  | [] => false
  | c :: rest => isAsciiLetter c && rest.all goodChar

/-- A JavaScript request-body field: `undefined`/absent, some non-string
value, or a string.  `validateUsername` and friends treat the first two
identically (both fail the `!x || typeof x !== 'string'` guard). -/
inductive JsVal where
  | undefined : JsVal
  | nonString : JsVal
  | str (s : String) : JsVal
deriving DecidableEq

/-- Result of a validation helper in server.js: either
`{valid: false, message}` or `{valid: true, value}`. -/
inductive VResult where
  | invalid (message : String) : VResult
  | valid (value : String) : VResult
deriving DecidableEq

/-- server.js `validateUsername`: requiredness guard (note that the
empty string is falsy in JavaScript, so it also hits the guard), trim,
length bounds 3-50 on the trimmed value, the username regex, and on
success the trimmed value is returned. -/
def validateUsername : JsVal → VResult
  | .undefined => .invalid "Username is required"
  | .nonString => .invalid "Username is required"
  | .str s =>
    if s = "" then .invalid "Username is required"
    else
      let t := jsTrim s
      if t.length < 3 ∨ 50 < t.length then
        .invalid "Username must be 3-50 characters long"
      else if usernameRegexTest t.data = false then
        .invalid "Username must start with a letter and contain only letters, numbers, and underscores"
      else
        .valid t

/-- The special-character class of `validatePassword`
(codes 34, 123, 125 are the double quote and the two curly braces). -/
def isPasswordSpecial (c : Char) : Bool :=
  c == '!' || c == '@' || c == '#' || c == '$' || c == '%' || c == '^' ||
  c == '&' || c == '*' || c == '(' || c == ')' || c == ',' || c == '.' ||
  c == '?' || c.toNat == 34 || c == ':' || c.toNat == 123 ||
  c.toNat == 125 || c == '|' || c == '<' || c == '>'

/-- server.js `validatePassword`: requiredness guard (empty string is
falsy), minimum length 8, and the four character-class requirements; on
success the original string is returned unchanged.  There is no maximum
length check. -/
def validatePassword : JsVal → VResult
  | .undefined => .invalid "Password is required"
  | .nonString => .invalid "Password is required"
  | .str s =>
    if s = "" then .invalid "Password is required"
    else if s.length < 8 then
      .invalid "Password must be at least 8 characters long"
    else
      let hasUppercase := s.data.any (fun c => 65 ≤ c.toNat && c.toNat ≤ 90)
      let hasLowercase := s.data.any (fun c => 97 ≤ c.toNat && c.toNat ≤ 122)
      let hasNumber := s.data.any isAsciiDigit
      let hasSpecialChar := s.data.any isPasswordSpecial
      if (hasUppercase && hasLowercase && hasNumber && hasSpecialChar) = false then
        .invalid "Password must include uppercase, lowercase, number, and special character"
      else
        .valid s

/-- Model of JavaScript `toLowerCase` (ASCII case folding). -/
def jsToLower (s : String) : String :=
  String.mk (s.data.map Char.toLower)

/-- Test of the email pattern: a nonempty run of non-whitespace
non-at-sign characters, one at sign, then a domain that itself contains
a dot which is neither its first nor its last character.  `splitOn`
yields exactly two parts precisely when the string has exactly one at
sign, matching the anchored regex. -/
def emailRegexTest (l : List Char) : Bool :=
  match l.splitOn '@' with
  | [localPart, domainPart] =>
    !localPart.isEmpty && localPart.all (fun c => !isJsWs c) &&
    !domainPart.isEmpty && domainPart.all (fun c => !isJsWs c) &&
    (domainPart.drop 1).dropLast.contains '.'
  | _ => false

/-- server.js `validateEmail`: requiredness guard, trim and lowercase,
then the shallow email-shape regex; on success the normalized value is
returned. -/
def validateEmail : JsVal → VResult
  | .undefined => .invalid "Email is required"
  | .nonString => .invalid "Email is required"
  | .str s =>
    if s = "" then .invalid "Email is required"
    else
      let t := jsToLower (jsTrim s)
      if emailRegexTest t.data = false then .invalid "Invalid email format"
      else .valid t

/-- The character class `[<>'"]` removed by `sanitizeInput`. -/
def stripChar (c : Char) : Bool :=
  c.toNat == 60 || c.toNat == 62 || c.toNat == 39 || c.toNat == 34

/-- server.js `sanitizeInput` on strings: remove every occurrence of the
four markup characters, then trim. -/
def sanitizeInput (s : String) : String :=
  jsTrim (String.mk (s.data.filter (fun c => !stripChar c)))

/-- The password column of a stored User row: either still the plain
input (never reached by a committed record) or a bcrypt digest.
bcrypt is idealized as a collision-free salted construction:
`bcrypt.hash` pairs the salt with the plaintext, and `bcrypt.compare`
succeeds exactly when the candidate equals the hashed plaintext. -/
inductive PwField where
  | plain (value : String) : PwField
  | hashed (salt : Nat) (value : String) : PwField
deriving DecidableEq

/-- Idealized `bcrypt.compare(candidate, stored)`: true exactly when the
stored field is a digest of the candidate.  On a non-digest stored value
bcrypt's comparison fails. -/
def bcryptCompare (candidate : String) : PwField → Bool
  | .plain _ => false
  | .hashed _ v => candidate == v

/-- Is the field a bcrypt digest? -/
def isHashed : PwField → Bool
  | .plain _ => false
  | .hashed _ _ => true

/-- user.js `beforeCreate` hook: if the password is truthy (nonempty),
replace it by a salted digest. -/
def beforeCreate (salt : Nat) : PwField → PwField
  | .plain p => if p == "" then .plain p else .hashed salt p
  | f => f

/-- user.js `beforeUpdate` hook, applied when `user.changed('password')`
holds: rehash the new plaintext unconditionally. -/
def beforeUpdate (salt : Nat) : PwField → PwField
  | .plain p => .hashed salt p
  | f => f

/-- A row of the `users` table (user.js model): surrogate id, username,
email, password column and the two Sequelize timestamps. -/
structure UserRec where
  id : Nat
  username : String
  email : String
  password : PwField
  createdAt : Nat
  updatedAt : Nat
deriving DecidableEq

/-- The Sequelize field validators of user.js, run on the plaintext
values before the hooks fire; each failing validator contributes its
message.  `isAlphanumeric` is validator.js's `/^[0-9A-Z]+$/i`;
validator.js's `isEmail` is approximated by the same shallow shape test
as the server-side check (adequate for values that already passed
`validateEmail`). -/
def modelValidationErrors (username email password : String) : List String :=
  (if 3 ≤ username.length ∧ username.length ≤ 50 then []
   else ["Username must be between 3 and 50 characters"]) ++
  (if (!username.data.isEmpty && username.data.all
        (fun c => isAsciiLetter c || isAsciiDigit c)) = true then []
   else ["Username can only contain letters and numbers"]) ++
  (if username = "" then ["Username cannot be empty"] else []) ++
  (if emailRegexTest email.data = true then []
   else ["Must be a valid email address"]) ++
  (if email = "" then ["Email cannot be empty"] else []) ++
  (if 8 ≤ password.length ∧ password.length ≤ 255 then []
   else ["Password must be at least 8 characters"]) ++
  (if password = "" then ["Password cannot be empty"] else [])

/-- The autoincrement primary key: one beyond the largest id in use. -/
def nextId (store : List UserRec) : Nat :=
  (store.map (fun r => r.id)).foldr Nat.max 0 + 1

/-- The duplicate-registration lookup predicate of the register handler:
same username or same email as the sanitized inputs. -/
def dupPred (su se : String) (r : UserRec) : Bool :=
  r.username == su || r.email == se

/-- Response of the register handler: HTTP status, `success` flag,
`message`, and on success the public user payload
(id, username, email, createdAt). -/
structure RegisterResp where
  status : Nat
  success : Bool
  message : String
  user : Option (Nat × String × String × Nat)
deriving DecidableEq

/-- server.js `POST /api/register`: validate username, email and
password in that order (400 on the first failure), sanitize the
accepted values, look up an existing row by username or email (409 on a
hit), then create the row — Sequelize runs the user.js field validators
(400 with their joined messages on failure) and the `beforeCreate` hook
before committing.  `salt` models the random salt drawn by
`bcrypt.genSalt`, `time` the row timestamps. -/
def register (store : List UserRec) (username email password : JsVal)
    (salt time : Nat) : RegisterResp × List UserRec :=
  match validateUsername username with
  | .invalid m => (⟨400, false, m, none⟩, store)
  | .valid vu =>
    match validateEmail email with
    | .invalid m => (⟨400, false, m, none⟩, store)
    | .valid ve =>
      match validatePassword password with
      | .invalid m => (⟨400, false, m, none⟩, store)
      | .valid vp =>
        let su := sanitizeInput vu
        let se := sanitizeInput ve
        match store.find? (dupPred su se) with
        | some _ => (⟨409, false, "Username or email already exists", none⟩, store)
        | none =>
          let errs := modelValidationErrors su se vp
          if errs.isEmpty then
            let nid := nextId store
            let nu : UserRec :=
              ⟨nid, su, se, beforeCreate salt (.plain vp), time, time⟩
            (⟨201, true, "User registered successfully", some (nid, su, se, time)⟩,
             store ++ [nu])
          else
            (⟨400, false, String.intercalate ", " errs, none⟩, store)

/-- JavaScript truthiness test for an optional string field:
`!x` holds when the field is absent or the empty string. -/
def optFalsy : Option String → Bool
  | none => true
  | some s => s == ""

/-- Response of the login handler: HTTP status, `success` flag,
`message`, and on success the public user payload (id, username,
email). -/
structure LoginResp where
  status : Nat
  success : Bool
  message : String
  user : Option (Nat × String × String)
deriving DecidableEq

/-- The single body sent for both login failure modes. -/
def unauthorizedResp : LoginResp :=
  ⟨401, false, "Invalid username or password", none⟩

/-- server.js `POST /api/login`: 400 if either field is falsy; sanitize
the trimmed username; look up the row by username; 401 with one fixed
body if there is no row or if the bcrypt comparison fails; 200 with the
public fields otherwise. -/
def login (store : List UserRec) (username password : Option String) : LoginResp :=
  if optFalsy username || optFalsy password then
    ⟨400, false, "Username and password are required", none⟩
  else
    let u := username.getD ""
    let p := password.getD ""
    let su := sanitizeInput (jsTrim u)
    match store.find? (fun r => r.username == su) with
    | none => ⟨401, false, "Invalid username or password", none⟩
    | some r =>
      if bcryptCompare p r.password then
        ⟨200, true, "Login successful", some (r.id, r.username, r.email)⟩
      else
        ⟨401, false, "Invalid username or password", none⟩

/-- Decimal digit value for `parseInt` (codes 48-57). -/
def decDigitVal (c : Char) : Option Nat :=
  if 48 ≤ c.toNat ∧ c.toNat ≤ 57 then some (c.toNat - 48) else none

/-- Hexadecimal digit value for `parseInt` with the `0x` prefix. -/
def hexDigitVal (c : Char) : Option Nat :=
  if 48 ≤ c.toNat ∧ c.toNat ≤ 57 then some (c.toNat - 48)
  else if 97 ≤ c.toNat ∧ c.toNat ≤ 102 then some (c.toNat - 87)
  else if 65 ≤ c.toNat ∧ c.toNat ≤ 70 then some (c.toNat - 55)
  else none

/-- Read the longest leading run of digits of the given base; `none`
(NaN) when the run is empty. -/
def parseDigits (base : Nat) (digitVal : Char → Option Nat) (l : List Char) : Option Nat :=
  let ds := l.takeWhile (fun c => (digitVal c).isSome)
  if ds.isEmpty then none
  else some (ds.foldl (fun n c => n * base + (digitVal c).getD 0) 0)

/-- Model of JavaScript `parseInt(s)` (no radix argument): skip leading
whitespace, read an optional sign, detect a `0x`/`0X` prefix, then read
the longest leading digit run, ignoring any trailing characters; NaN
(`none`) when no digit is read.  Exact for identifiers in the safe
integer range. -/
def parseIntJs (s : String) : Option Int :=
  let l := s.data.dropWhile isJsWs
  let signed : Int × List Char :=
    match l with
    | c :: t => if c == '-' then (-1, t) else if c == '+' then (1, t) else (1, l)
    | [] => (1, l)
  let mag : Option Nat :=
    match signed.2 with
    | c0 :: c1 :: t =>
      if c0 == '0' && (c1 == 'x' || c1 == 'X') then parseDigits 16 hexDigitVal t
      else parseDigits 10 decDigitVal signed.2
    | _ => parseDigits 10 decDigitVal signed.2
  mag.map (fun n => signed.1 * n)

/-- Response of the delete handler: HTTP status, `success` flag,
`message`, and on success the deleted row's id and username. -/
structure DeleteResp where
  status : Nat
  success : Bool
  message : String
  deletedUser : Option (Nat × String)
deriving DecidableEq

/-- server.js `DELETE /api/users/:id`: 400 when `parseInt` yields NaN,
404 when no row has the parsed primary key, otherwise destroy that row
and return its id and username. -/
def deleteUser (store : List UserRec) (idStr : String) : DeleteResp × List UserRec :=
  match parseIntJs idStr with
  | none => (⟨400, false, "Invalid user ID", none⟩, store)
  | some n =>
    match store.find? (fun r => (r.id : Int) == n) with
    | none => (⟨404, false, "User not found", none⟩, store)
    | some r =>
      (⟨200, true, "User deleted successfully", some (r.id, r.username)⟩,
       store.eraseP (fun q => (q.id : Int) == n))

/-- The serialized public view of a row under
`attributes: exclude ['password']`: every column except the password. -/
def toPublicFields (r : UserRec) : List (String × String) :=
  [("id", toString r.id), ("username", r.username), ("email", r.email),
   ("createdAt", toString r.createdAt), ("updatedAt", toString r.updatedAt)]

/-- Response of the list handler. -/
structure ListResp where
  status : Nat
  success : Bool
  count : Nat
  users : List (List (String × String))

/-- The `order: createdAt DESC` relation. -/
def createdDesc (a b : UserRec) : Prop :=
  b.createdAt ≤ a.createdAt

instance : DecidableRel createdDesc :=
  fun a b => Nat.decLe b.createdAt a.createdAt

/-- server.js `GET /api/users`: all rows ordered by `createdAt`
descending, serialized without the password column. -/
def listUsers (store : List UserRec) : ListResp :=
  let sorted := store.insertionSort createdDesc
  ⟨200, true, sorted.length, sorted.map toPublicFields⟩

/-- A request hitting the service, for the reachable-state invariant:
the four routes plus the model-level password-change path (user.js
`beforeUpdate` hook; no HTTP route drives it, but the model owns it). -/
inductive Op where
  | opRegister (username email password : JsVal) (salt time : Nat) : Op
  | opLogin (username password : Option String) : Op
  | opList : Op
  | opDelete (idStr : String) : Op
  | opChangePassword (uid : Nat) (newPw : String) (salt time : Nat) : Op

/-- The user.js update path for a password change: Sequelize validates
the new plaintext with the field validators, then the `beforeUpdate`
hook rehashes it before the row is persisted; a validation failure
leaves the row unchanged. -/
def updatePassword (store : List UserRec) (uid : Nat) (newPw : String)
    (salt time : Nat) : List UserRec :=
  store.map (fun r =>
    if r.id == uid then
      if (modelValidationErrors r.username r.email newPw).isEmpty then
        { r with password := beforeUpdate salt (.plain newPw), updatedAt := time }
      else r
    else r)

/-- Effect of one request on the table. -/
def applyOp (store : List UserRec) : Op → List UserRec
  | .opRegister u e p salt time => (register store u e p salt time).2
  | .opLogin _ _ => store
  | .opList => store
  | .opDelete idStr => (deleteUser store idStr).2
  | .opChangePassword uid newPw salt time => updatePassword store uid newPw salt time

/-- The table reached from the empty table by a request sequence. -/
def runOps (ops : List Op) : List UserRec :=
  ops.foldl applyOp []

/-! Helper lemmas about the primitive string operations. -/

theorem dropWhile_length_le (p : Char → Bool) (l : List Char) :
    (l.dropWhile p).length ≤ l.length := by
  induction l with
  | nil => simp
  | cons a t ih =>
    rw [List.dropWhile_cons]
    split
    · exact Nat.le_trans ih (Nat.le_succ _)
    · exact Nat.le_refl _

theorem jsTrim_length_le (s : String) : (jsTrim s).length ≤ s.length := by
  show (jsTrimList s.data).length ≤ s.data.length
  unfold jsTrimList
  rw [List.length_reverse]
  calc ((s.data.dropWhile isJsWs).reverse.dropWhile isJsWs).length
      ≤ (s.data.dropWhile isJsWs).reverse.length := dropWhile_length_le _ _
    _ = (s.data.dropWhile isJsWs).length := List.length_reverse _
    _ ≤ s.data.length := dropWhile_length_le _ _

theorem dropWhile_eq_self_of (p : Char → Bool) (l : List Char)
    (h : ∀ c ∈ l, p c = false) : l.dropWhile p = l := by
  cases l with
  | nil => rfl
  | cons a t => simp [List.dropWhile_cons, h a (List.mem_cons_self a t)]

theorem jsTrimList_eq_self (l : List Char) (h : ∀ c ∈ l, isJsWs c = false) :
    jsTrimList l = l := by
  unfold jsTrimList
  rw [dropWhile_eq_self_of _ _ h,
    dropWhile_eq_self_of _ _ (fun c hc => h c (List.mem_reverse.mp hc)),
    List.reverse_reverse]

theorem goodChar_bounds {c : Char} (h : goodChar c = true) :
    (97 ≤ c.toNat ∧ c.toNat ≤ 122) ∨ (65 ≤ c.toNat ∧ c.toNat ≤ 90) ∨
    (48 ≤ c.toNat ∧ c.toNat ≤ 57) ∨ c.toNat = 95 := by
  simp only [goodChar, isAsciiLetter, isAsciiDigit, Bool.or_eq_true, Bool.and_eq_true,
    decide_eq_true_eq, beq_iff_eq] at h
  tauto

theorem goodChar_not_ws {c : Char} (h : goodChar c = true) : isJsWs c = false := by
  have hb := goodChar_bounds h
  simp only [isJsWs, Bool.or_eq_false_iff, beq_eq_false_iff_ne, ne_eq]
  omega

theorem goodChar_not_strip {c : Char} (h : goodChar c = true) : stripChar c = false := by
  have hb := goodChar_bounds h
  simp only [stripChar, Bool.or_eq_false_iff, beq_eq_false_iff_ne, ne_eq]
  omega

theorem usernameRegex_all_good {l : List Char} (h : usernameRegexTest l = true) :
    ∀ c ∈ l, goodChar c = true := by
  cases l with
  | nil => simp [usernameRegexTest] at h
  | cons a t =>
    simp only [usernameRegexTest, Bool.and_eq_true, List.all_eq_true] at h
    intro c hc
    rcases List.mem_cons.mp hc with rfl | hct
    · simp [goodChar, h.1]
    · exact h.2 c hct

theorem sanitize_eq_self_of_good {s : String} (h : ∀ c ∈ s.data, goodChar c = true) :
    sanitizeInput s = s := by
  unfold sanitizeInput
  have hfilter : s.data.filter (fun c => !stripChar c) = s.data :=
    List.filter_eq_self.mpr (fun c hc => by rw [goodChar_not_strip (h c hc)]; rfl)
  rw [hfilter]
  show jsTrim (String.mk s.data) = s
  unfold jsTrim
  rw [show (String.mk s.data).data = s.data from rfl,
    jsTrimList_eq_self _ (fun c hc => goodChar_not_ws (h c hc))]

/-! Inversion lemmas for the validators. -/

theorem validateUsername_valid_inv {x : JsVal} {v : String}
    (h : validateUsername x = .valid v) :
    ∃ s, x = .str s ∧ s ≠ "" ∧ v = jsTrim s ∧
      usernameRegexTest v.data = true ∧ 3 ≤ v.length ∧ v.length ≤ 50 := by
  cases x with
  | undefined => exact absurd h (by simp [validateUsername])
  | nonString => exact absurd h (by simp [validateUsername])
  | str s =>
    refine ⟨s, rfl, ?_⟩
    by_cases hs : s = ""
    · simp [validateUsername, hs] at h
    · simp only [validateUsername, if_neg hs] at h
      by_cases hlen : (jsTrim s).length < 3 ∨ 50 < (jsTrim s).length
      · rw [if_pos hlen] at h; cases h
      · rw [if_neg hlen] at h
        by_cases hre : usernameRegexTest (jsTrim s).data = false
        · rw [if_pos hre] at h; cases h
        · rw [if_neg hre] at h
          injection h with hv
          push_neg at hlen
          refine ⟨hs, hv.symm, ?_, ?_, ?_⟩
          · rw [← hv]
            cases hb : usernameRegexTest (jsTrim s).data
            · exact absurd hb hre
            · rfl
          · rw [← hv]; omega
          · rw [← hv]; omega

theorem validatePassword_valid_inv {x : JsVal} {v : String}
    (h : validatePassword x = .valid v) :
    ∃ s, x = .str s ∧ v = s ∧ s ≠ "" ∧ 8 ≤ s.length := by
  cases x with
  | undefined => exact absurd h (by simp [validatePassword])
  | nonString => exact absurd h (by simp [validatePassword])
  | str s =>
    refine ⟨s, rfl, ?_⟩
    by_cases hs : s = ""
    · simp [validatePassword, hs] at h
    · simp only [validatePassword, if_neg hs] at h
      by_cases hlen : s.length < 8
      · rw [if_pos hlen] at h; cases h
      · rw [if_neg hlen] at h
        split at h
        · cases h
        · injection h with hv
          exact ⟨hv.symm, hs, by omega⟩

/-! Helper lemmas about list lookup and removal. -/

theorem find?_eq_none_of_imp {q p : UserRec → Bool} {l : List UserRec}
    (h : l.find? p = none) (himp : ∀ r, q r = true → p r = true) :
    l.find? q = none := by
  rw [List.find?_eq_none] at h ⊢
  exact fun x hx hq => h x hx (himp x hq)

theorem eraseP_eq_self_of_find?_none {p : UserRec → Bool} {l : List UserRec}
    (h : l.find? p = none) : l.eraseP p = l := by
  induction l with
  | nil => rfl
  | cons a t ih =>
    rw [List.find?_cons] at h
    cases hp : p a with
    | false =>
      simp only [hp] at h
      simp [List.eraseP_cons, hp, ih h]
    | true => simp [hp] at h

theorem find?_eraseP_none {l : List UserRec} {n : Int} {r : UserRec}
    (hpw : l.Pairwise (fun a b => a.id ≠ b.id))
    (hf : l.find? (fun q => (q.id : Int) == n) = some r) :
    (l.eraseP (fun q => (q.id : Int) == n)).find? (fun q => (q.id : Int) == n) = none := by
  induction l with
  | nil => simp at hf
  | cons a t ih =>
    rw [List.find?_cons] at hf
    rw [List.pairwise_cons] at hpw
    cases hp : ((a.id : Int) == n) with
    | true =>
      simp only [List.eraseP_cons, hp, cond_true]
      apply List.find?_eq_none.mpr
      intro x hx hxn
      have han : (a.id : Int) = n := by simpa using hp
      have hxe : (x.id : Int) = n := by simpa using hxn
      exact hpw.1 x hx (by omega)
    | false =>
      simp only [hp] at hf
      simp only [List.eraseP_cons, hp, cond_false]
      rw [List.find?_cons, hp]
      exact ih hpw.2 hf

/-! Case analysis of the register handler. -/

theorem register_cases (store : List UserRec) (u e p : JsVal) (salt time : Nat) :
    (∃ m, register store u e p salt time = (⟨400, false, m, none⟩, store)) ∨
    (register store u e p salt time =
      (⟨409, false, "Username or email already exists", none⟩, store)) ∨
    (∃ vu ve vp,
      validateUsername u = .valid vu ∧ validateEmail e = .valid ve ∧
      validatePassword p = .valid vp ∧
      store.find? (dupPred (sanitizeInput vu) (sanitizeInput ve)) = none ∧
      (modelValidationErrors (sanitizeInput vu) (sanitizeInput ve) vp).isEmpty = true ∧
      register store u e p salt time =
        (⟨201, true, "User registered successfully",
           some (nextId store, sanitizeInput vu, sanitizeInput ve, time)⟩,
         store ++ [⟨nextId store, sanitizeInput vu, sanitizeInput ve,
                    beforeCreate salt (.plain vp), time, time⟩])) := by
  unfold register
  cases hu : validateUsername u with
  | invalid m => exact Or.inl ⟨m, rfl⟩
  | valid vu =>
    cases he : validateEmail e with
    | invalid m => exact Or.inl ⟨m, rfl⟩
    | valid ve =>
      cases hp : validatePassword p with
      | invalid m => exact Or.inl ⟨m, rfl⟩
      | valid vp =>
        cases hf : store.find? (dupPred (sanitizeInput vu) (sanitizeInput ve)) with
        | some r => exact Or.inr (Or.inl (by simp [hf]))
        | none =>
          cases herrs :
              (modelValidationErrors (sanitizeInput vu) (sanitizeInput ve) vp).isEmpty with
          | true =>
            refine Or.inr (Or.inr ⟨vu, ve, vp, rfl, rfl, rfl, hf, herrs, ?_⟩)
            simp [hf, herrs]
          | false =>
            refine Or.inl ⟨String.intercalate ", "
              (modelValidationErrors (sanitizeInput vu) (sanitizeInput ve) vp), ?_⟩
            simp [hf, herrs]

theorem exists_invalid_of_not_valid {r : VResult} (h : ∀ v, r ≠ .valid v) :
    ∃ m, r = .invalid m := by
  cases r with
  | invalid m => exact ⟨m, rfl⟩
  | valid v => exact absurd rfl (h v)

/-- Claim C2: for every login attempt that passes the missing-field
guard, the no-such-user case and the failed-hash-comparison case both
produce the very same Unauthorized response (status 401 and identical
body), so the response never reveals whether the username existed. -/
theorem loginFailuresIndistinguishable (store : List UserRec)
    (username password : Option String)
    (hu : optFalsy username = false) (hp : optFalsy password = false) :
    (store.find? (fun r => r.username == sanitizeInput (jsTrim (username.getD ""))) = none →
      login store username password = unauthorizedResp) ∧
    (∀ r, store.find? (fun q => q.username == sanitizeInput (jsTrim (username.getD ""))) = some r →
      bcryptCompare (password.getD "") r.password = false →
      login store username password = unauthorizedResp) := by
  constructor
  · intro hf
    simp [login, hu, hp, hf, unauthorizedResp]
  · intro r hf hcmp
    simp [login, hu, hp, hf, hcmp, unauthorizedResp]

theorem loginFailuresIndistinguishable_witness :
    login [] (some "alice") (some "Abcdef1!") = unauthorizedResp :=
  (loginFailuresIndistinguishable [] (some "alice") (some "Abcdef1!")
    (by decide) (by decide)).1 (by decide)

/-- Claim C3: the username check rejects with the required message when
the input is missing or not a string; it rejects whenever the trimmed
length is below 3 or above 50, whenever some character outside letters,
digits and underscore is present, and whenever the first character is
not a letter; on success it returns the trimmed value; "3abc" is
rejected, "abc_123" is accepted, "ab" is rejected. -/
theorem usernameCheckSpec :
    (validateUsername .undefined = .invalid "Username is required") ∧
    (validateUsername .nonString = .invalid "Username is required") ∧
    (∀ s : String, (jsTrim s).length < 3 ∨ 50 < (jsTrim s).length →
      ∃ m, validateUsername (.str s) = .invalid m) ∧
    (∀ s : String, (∃ c ∈ (jsTrim s).data, goodChar c = false) →
      ∃ m, validateUsername (.str s) = .invalid m) ∧
    (∀ s : String, ∀ c rest, (jsTrim s).data = c :: rest → isAsciiLetter c = false →
      ∃ m, validateUsername (.str s) = .invalid m) ∧
    (∀ s v, validateUsername (.str s) = .valid v → v = jsTrim s) ∧
    (validateUsername (.str "3abc") =
      .invalid "Username must start with a letter and contain only letters, numbers, and underscores") ∧
    (validateUsername (.str "abc_123") = .valid "abc_123") ∧
    (validateUsername (.str "ab") = .invalid "Username must be 3-50 characters long") := by
  refine ⟨rfl, rfl, ?_, ?_, ?_, ?_, by decide, by decide, by decide⟩
  · intro s hlen
    apply exists_invalid_of_not_valid
    intro v hv
    obtain ⟨s2, hseq, _, hvt, _, h3, h50⟩ := validateUsername_valid_inv hv
    injection hseq with hseq
    subst hseq
    rw [hvt] at h3 h50
    omega
  · intro s ⟨c, hc, hbad⟩
    apply exists_invalid_of_not_valid
    intro v hv
    obtain ⟨s2, hseq, _, hvt, hre, _, _⟩ := validateUsername_valid_inv hv
    injection hseq with hseq
    subst hseq
    rw [hvt] at hre
    rw [usernameRegex_all_good hre c hc] at hbad
    cases hbad
  · intro s c rest hdata hletter
    apply exists_invalid_of_not_valid
    intro v hv
    obtain ⟨s2, hseq, _, hvt, hre, _, _⟩ := validateUsername_valid_inv hv
    injection hseq with hseq
    subst hseq
    rw [hvt, hdata] at hre
    simp only [usernameRegexTest, Bool.and_eq_true] at hre
    rw [hre.1] at hletter
    cases hletter
  · intro s v hv
    obtain ⟨s2, hseq, _, hvt, _, _, _⟩ := validateUsername_valid_inv hv
    injection hseq with hseq
    subst hseq
    exact hvt

theorem usernameCheckSpec_witness :
    ∃ m, validateUsername (.str "ab") = .invalid m :=
  usernameCheckSpec.2.2.1 "ab" (Or.inl (by decide))

/-- Claim C4 counterexample: the empty string is shorter than the
minimum username length, yet the check rejects it with the required
message, not the length-specific message (the empty string is falsy in
JavaScript and hits the requiredness guard first). -/
theorem usernameEmptyStringRequiredMessage :
    validateUsername (.str "") = .invalid "Username is required" ∧
    (VResult.invalid "Username is required" ≠
      VResult.invalid "Username must be 3-50 characters long") := by decide

/-- Claim C4 (amended): for every nonempty string shorter than the
minimum username length the check rejects with the length-specific
message, regardless of character content; the empty string instead
rejects with the required message. -/
theorem usernameShortRejectsLengthMessage (s : String) (hne : s ≠ "")
    (hlt : s.length < 3) :
    validateUsername (.str s) = .invalid "Username must be 3-50 characters long" := by
  have hle := jsTrim_length_le s
  simp only [validateUsername, if_neg hne]
  rw [if_pos (Or.inl (by omega))]

theorem usernameShortRejectsLengthMessage_witness :
    validateUsername (.str "ab") = .invalid "Username must be 3-50 characters long" :=
  usernameShortRejectsLengthMessage "ab" (by decide) (by decide)

/-- Claim C5 counterexample: a 101-character password meeting the
character-class rules is accepted by the password check — the server's
`validatePassword` enforces no maximum length, so "rejects every string
whose length exceeds 100" fails. -/
theorem passwordLength101Accepted :
    (String.mk ('A' :: 'a' :: '1' :: '!' :: List.replicate 97 'a')).length = 101 ∧
    validatePassword (.str (String.mk ('A' :: 'a' :: '1' :: '!' :: List.replicate 97 'a'))) =
      .valid (String.mk ('A' :: 'a' :: '1' :: '!' :: List.replicate 97 'a')) := by decide

/-- Claim C5 (amended): the password check rejects every string whose
length is below the configured minimum 8 (there is no maximum-length
rejection), and on success returns the original value unchanged — never
trimmed or case-folded. -/
theorem passwordCheckSpec :
    (∀ s : String, s.length < 8 → ∃ m, validatePassword (.str s) = .invalid m) ∧
    (validatePassword .undefined = .invalid "Password is required") ∧
    (validatePassword .nonString = .invalid "Password is required") ∧
    (∀ s v, validatePassword (.str s) = .valid v → v = s) := by
  refine ⟨?_, rfl, rfl, ?_⟩
  · intro s hlt
    apply exists_invalid_of_not_valid
    intro v hv
    obtain ⟨s2, hseq, _, _, h8⟩ := validatePassword_valid_inv hv
    injection hseq with hseq
    subst hseq
    omega
  · intro s v hv
    obtain ⟨s2, hseq, hvs, _, _⟩ := validatePassword_valid_inv hv
    injection hseq with hseq
    subst hseq
    exact hvs

theorem passwordCheckSpec_witness :
    ∃ m, validatePassword (.str "abc") = .invalid m :=
  passwordCheckSpec.1 "abc" (by decide)

/-- Claim C10: sanitization is the identity on validated usernames —
an accepted username is already trimmed and consists only of letters,
digits and underscores, so stripping the four markup characters and
trimming returns it unchanged. -/
theorem sanitizeIdentityOnValidUsernames (s v : String)
    (h : validateUsername (.str s) = .valid v) : sanitizeInput v = v := by
  obtain ⟨s2, _, _, _, hre, _, _⟩ := validateUsername_valid_inv h
  exact sanitize_eq_self_of_good (usernameRegex_all_good hre)

theorem sanitizeIdentityOnValidUsernames_witness :
    sanitizeInput "abc_123" = "abc_123" :=
  sanitizeIdentityOnValidUsernames "abc_123" "abc_123" (by decide)

/-- Claim C6: registering a second user whose sanitized username or
email equals that of an existing row yields the Conflict outcome (409
with the duplicate message) and leaves the table — in particular the
first user's row — unchanged. -/
theorem duplicateRegistrationConflict (store : List UserRec) (u e p : JsVal)
    (vu ve vp : String) (salt time : Nat)
    (hu : validateUsername u = .valid vu) (he : validateEmail e = .valid ve)
    (hp : validatePassword p = .valid vp)
    (hdup : ∃ r ∈ store, r.username = sanitizeInput vu ∨ r.email = sanitizeInput ve) :
    register store u e p salt time =
      (⟨409, false, "Username or email already exists", none⟩, store) := by
  have hfind : (store.find? (dupPred (sanitizeInput vu) (sanitizeInput ve))).isSome := by
    obtain ⟨r, hr, hor⟩ := hdup
    refine List.find?_isSome.mpr ⟨r, hr, ?_⟩
    simpa [dupPred] using hor
  obtain ⟨r, hfr⟩ := Option.isSome_iff_exists.mp hfind
  unfold register
  rw [hu, he, hp]
  dsimp only
  rw [hfr]

theorem duplicateRegistrationConflict_witness :
    register [⟨1, "alice", "alice@mail.com", .hashed 7 "Abcdef1!", 0, 0⟩]
        (.str "alice") (.str "other@mail.com") (.str "Zyxwvu9?") 9 5 =
      (⟨409, false, "Username or email already exists", none⟩,
       [⟨1, "alice", "alice@mail.com", .hashed 7 "Abcdef1!", 0, 0⟩]) :=
  duplicateRegistrationConflict _ (.str "alice") (.str "other@mail.com")
    (.str "Zyxwvu9?") "alice" "other@mail.com" "Zyxwvu9?" 9 5
    (by decide) (by decide) (by decide)
    ⟨⟨1, "alice", "alice@mail.com", .hashed 7 "Abcdef1!", 0, 0⟩, by decide,
      Or.inl (by decide)⟩

/-- Claim C7 counterexample: "12abc" is not a numeral, yet `parseInt`
reads its leading digits, so deleting id "12abc" on a table holding row
12 succeeds with 200 and removes the row instead of answering 400. -/
theorem deleteTrailingGarbageIdSucceeds :
    (deleteUser [⟨12, "bob", "bob@mail.com", .hashed 1 "Abcdef1!", 0, 0⟩] "12abc").1.status = 200 ∧
    (deleteUser [⟨12, "bob", "bob@mail.com", .hashed 1 "Abcdef1!", 0, 0⟩] "12abc").1.status ≠ 400 ∧
    (deleteUser [⟨12, "bob", "bob@mail.com", .hashed 1 "Abcdef1!", 0, 0⟩] "12abc").2 = [] := by
  decide

/-- Claim C7 (amended): an id on which `parseInt` yields NaN (no
parseable leading integer) answers 400; an id that parses — even with
trailing non-digits — is treated as the parsed integer: with no
matching row the outcome is 404 NotFound, with a matching row exactly
that row is removed and its id and username are returned, and deleting
the same id twice in a row (on a table with distinct ids) yields
success then NotFound. -/
theorem deleteByIdSpec :
    (∀ store idStr, parseIntJs idStr = none →
      deleteUser store idStr = (⟨400, false, "Invalid user ID", none⟩, store)) ∧
    (∀ store idStr n, parseIntJs idStr = some n →
      store.find? (fun q => (q.id : Int) == n) = none →
      deleteUser store idStr = (⟨404, false, "User not found", none⟩, store)) ∧
    (∀ store idStr n r, parseIntJs idStr = some n →
      store.find? (fun q => (q.id : Int) == n) = some r →
      deleteUser store idStr =
        (⟨200, true, "User deleted successfully", some (r.id, r.username)⟩,
         store.eraseP (fun q => (q.id : Int) == n))) ∧
    (∀ store idStr n r, store.Pairwise (fun a b => a.id ≠ b.id) →
      parseIntJs idStr = some n →
      store.find? (fun q => (q.id : Int) == n) = some r →
      (deleteUser (deleteUser store idStr).2 idStr).1 =
        ⟨404, false, "User not found", none⟩) := by
  refine ⟨?_, ?_, ?_, ?_⟩
  · intro store idStr hparse
    unfold deleteUser
    rw [hparse]
  · intro store idStr n hparse hfind
    unfold deleteUser
    rw [hparse]
    dsimp only
    rw [hfind]
  · intro store idStr n r hparse hfind
    unfold deleteUser
    rw [hparse]
    dsimp only
    rw [hfind]
  · intro store idStr n r hpw hparse hfind
    have h1 : (deleteUser store idStr).2 = store.eraseP (fun q => (q.id : Int) == n) := by
      unfold deleteUser
      rw [hparse]
      dsimp only
      rw [hfind]
    rw [h1]
    have h2 : (store.eraseP (fun q => (q.id : Int) == n)).find?
        (fun q => (q.id : Int) == n) = none := find?_eraseP_none hpw hfind
    unfold deleteUser
    rw [hparse]
    dsimp only
    rw [h2]

theorem deleteByIdSpec_witness :
    (deleteUser (deleteUser [⟨12, "bob", "bob@mail.com", .hashed 1 "Abcdef1!", 0, 0⟩] "12").2 "12").1 =
      ⟨404, false, "User not found", none⟩ :=
  deleteByIdSpec.2.2.2 [⟨12, "bob", "bob@mail.com", .hashed 1 "Abcdef1!", 0, 0⟩] "12" 12
    ⟨12, "bob", "bob@mail.com", .hashed 1 "Abcdef1!", 0, 0⟩
    (by simp) (by decide) (by decide)

/-- Claim C8: the list operation returns all stored rows — one response
element per row, count equal to the table size — with every element the
password-free serialization of a distinct row, in creation-time
descending order, for tables of any size. -/
theorem listUsersSpec (store : List UserRec) :
    ∃ sorted : List UserRec,
      List.Perm sorted store ∧
      List.Pairwise createdDesc sorted ∧
      (listUsers store).users = sorted.map toPublicFields ∧
      (listUsers store).count = store.length ∧
      (listUsers store).users.length = store.length ∧
      ∀ elem ∈ (listUsers store).users, ∀ kv ∈ elem, kv.1 ≠ "password" := by
  haveI : IsTotal UserRec createdDesc := ⟨fun a b => by unfold createdDesc; omega⟩
  haveI : IsTrans UserRec createdDesc :=
    ⟨fun a b c hab hbc => by unfold createdDesc at hab hbc ⊢; omega⟩
  refine ⟨store.insertionSort createdDesc, List.perm_insertionSort createdDesc store,
    List.sorted_insertionSort createdDesc store, rfl, ?_, ?_, ?_⟩
  · exact (List.perm_insertionSort createdDesc store).length_eq
  · show ((store.insertionSort createdDesc).map toPublicFields).length = store.length
    rw [List.length_map]
    exact (List.perm_insertionSort createdDesc store).length_eq
  · intro elem helem kv hkv
    obtain ⟨r, _, rfl⟩ := List.mem_map.mp helem
    simp only [toPublicFields, List.mem_cons, List.not_mem_nil, or_false] at hkv
    rcases hkv with rfl | rfl | rfl | rfl | rfl
    · exact fun hcontra => absurd hcontra (show ¬("id" = "password") by decide)
    · exact fun hcontra => absurd hcontra (show ¬("username" = "password") by decide)
    · exact fun hcontra => absurd hcontra (show ¬("email" = "password") by decide)
    · exact fun hcontra => absurd hcontra (show ¬("createdAt" = "password") by decide)
    · exact fun hcontra => absurd hcontra (show ¬("updatedAt" = "password") by decide)

theorem listUsersSpec_witness :
    ∃ sorted : List UserRec,
      List.Perm sorted [⟨1, "alice", "a@b.c", .hashed 7 "pw", 0, 0⟩] ∧
      List.Pairwise createdDesc sorted ∧
      (listUsers [⟨1, "alice", "a@b.c", .hashed 7 "pw", 0, 0⟩]).users = sorted.map toPublicFields ∧
      (listUsers [⟨1, "alice", "a@b.c", .hashed 7 "pw", 0, 0⟩]).count = 1 ∧
      (listUsers [⟨1, "alice", "a@b.c", .hashed 7 "pw", 0, 0⟩]).users.length = 1 ∧
      ∀ elem ∈ (listUsers [⟨1, "alice", "a@b.c", .hashed 7 "pw", 0, 0⟩]).users,
        ∀ kv ∈ elem, kv.1 ≠ "password" :=
  listUsersSpec [⟨1, "alice", "a@b.c", .hashed 7 "pw", 0, 0⟩]

theorem storeInv_applyOp {store : List UserRec} (op : Op)
    (h : ∀ r ∈ store, isHashed r.password = true) :
    ∀ r ∈ applyOp store op, isHashed r.password = true := by
  cases op with
  | opLogin u p => exact h
  | opList => exact h
  | opRegister u e p salt time =>
    intro r hr
    simp only [applyOp] at hr
    rcases register_cases store u e p salt time with
      ⟨m, heq⟩ | heq | ⟨vu, ve, vp, hu, he, hp, hf, herrs, heq⟩
    · rw [heq] at hr
      exact h r hr
    · rw [heq] at hr
      exact h r hr
    · rw [heq] at hr
      rcases List.mem_append.mp hr with hr2 | hr2
      · exact h r hr2
      · obtain ⟨s, _, hvp, hsne, _⟩ := validatePassword_valid_inv hp
        have hvpne : (vp == "") = false := beq_eq_false_iff_ne.mpr (hvp ▸ hsne)
        rw [List.mem_singleton.mp hr2]
        simp [beforeCreate, hvpne, isHashed]
  | opDelete idStr =>
    intro r hr
    simp only [applyOp] at hr
    have hsub : r ∈ store := by
      unfold deleteUser at hr
      cases hparse : parseIntJs idStr with
      | none => rw [hparse] at hr; exact hr
      | some n =>
        rw [hparse] at hr
        dsimp only at hr
        cases hfind : store.find? (fun q => (q.id : Int) == n) with
        | none => rw [hfind] at hr; exact hr
        | some q =>
          rw [hfind] at hr
          exact (List.eraseP_sublist store).subset hr
    exact h r hsub
  | opChangePassword uid newPw salt time =>
    intro r hr
    simp only [applyOp, updatePassword] at hr
    obtain ⟨q, hq, hform⟩ := List.mem_map.mp hr
    split at hform
    · split at hform
      · rw [← hform]
        rfl
      · rw [← hform]
        exact h q hq
    · rw [← hform]
      exact h q hq

/-- Claim C9: on every table reachable from the empty table by any
sequence of requests, the password column of every row is a salted
digest, never the plain input — creation hashes before insert, and the
password-change path rehashes before persisting. -/
theorem passwordAlwaysHashed (ops : List Op) :
    ∀ r ∈ runOps ops, isHashed r.password = true := by
  suffices hgen : ∀ l : List Op, ∀ store : List UserRec,
      (∀ r ∈ store, isHashed r.password = true) →
      ∀ r ∈ l.foldl applyOp store, isHashed r.password = true by
    exact hgen ops [] (by simp)
  intro l
  induction l with
  | nil => intro store h; simpa using h
  | cons op t ih =>
    intro store h
    exact ih _ (storeInv_applyOp op h)

theorem passwordAlwaysHashed_witness :
    isHashed (UserRec.mk 1 "alice" "alice@mail.com" (.hashed 7 "Abcdef1!") 0 0).password = true :=
  passwordAlwaysHashed
    [.opRegister (.str "alice") (.str "alice@mail.com") (.str "Abcdef1!") 7 0]
    ⟨1, "alice", "alice@mail.com", .hashed 7 "Abcdef1!", 0, 0⟩ (by decide)

theorem login_eq_of_found (store : List UserRec) (u p : String) (r : UserRec)
    (hub : (u == "") = false) (hpb : (p == "") = false)
    (hfind : store.find? (fun q => q.username == sanitizeInput (jsTrim u)) = some r) :
    login store (some u) (some p) =
      if bcryptCompare p r.password then
        ⟨200, true, "Login successful", some (r.id, r.username, r.email)⟩
      else ⟨401, false, "Invalid username or password", none⟩ := by
  have hcond : (optFalsy (some u) || optFalsy (some p)) = false := by
    simp [optFalsy, hub, hpb]
  unfold login
  rw [hcond, if_neg Bool.false_ne_true]
  dsimp only [Option.getD]
  rw [hfind]

/-- Claim C1 counterexample: after a successful registration of "alice"
with password "Abcdef1!", logging in with the distinct password string
"" does not produce the Unauthorized outcome — the empty string is
falsy and fails the missing-fields guard with 400 instead, so "a login
with any other password string fails with the Unauthorized outcome" is
false for the empty string. -/
theorem loginEmptyPasswordNotUnauthorized :
    ((register [] (.str "alice") (.str "alice@mail.com") (.str "Abcdef1!") 7 0).1.status = 201) ∧
    ("" ≠ "Abcdef1!") ∧
    ((login (register [] (.str "alice") (.str "alice@mail.com") (.str "Abcdef1!") 7 0).2
        (some "alice") (some "")).status = 400) ∧
    (login (register [] (.str "alice") (.str "alice@mail.com") (.str "Abcdef1!") 7 0).2
        (some "alice") (some "") ≠ unauthorizedResp) := by decide

/-- Claim C1 (amended): for every user created through the registration
path with a validated plaintext password, a login with the same raw
username and the original plaintext password succeeds (200, success),
and a login with any other nonempty password string fails with the
Unauthorized outcome (the empty string instead fails the missing-fields
guard with 400). -/
theorem registrationLoginRoundTrip (store : List UserRec) (u e p : String)
    (salt time : Nat) (resp : RegisterResp) (store2 : List UserRec)
    (hreg : register store (.str u) (.str e) (.str p) salt time = (resp, store2))
    (h201 : resp.status = 201) :
    (login store2 (some u) (some p)).status = 200 ∧
    (login store2 (some u) (some p)).success = true ∧
    ∀ q, q ≠ p → q ≠ "" → login store2 (some u) (some q) = unauthorizedResp := by
  rcases register_cases store (.str u) (.str e) (.str p) salt time with
    ⟨m, heq⟩ | heq | ⟨vu, ve, vp, hu, he, hp, hf, herrs, heq⟩
  · rw [heq] at hreg
    injection hreg with h1 h2
    rw [← h1] at h201
    exact absurd h201 (show ¬(400 = 201) by decide)
  · rw [heq] at hreg
    injection hreg with h1 h2
    rw [← h1] at h201
    exact absurd h201 (show ¬(409 = 201) by decide)
  · rw [heq] at hreg
    injection hreg with h1 h2
    subst h2
    obtain ⟨u2, hu2, hune, hvu, hre, h3, h50⟩ := validateUsername_valid_inv hu
    injection hu2 with hu2
    subst u2
    obtain ⟨p2, hp2, hvp, hpne, h8⟩ := validatePassword_valid_inv hp
    injection hp2 with hp2
    subst p2
    subst vp
    subst vu
    have hub : (u == "") = false := beq_eq_false_iff_ne.mpr hune
    have hpb : (p == "") = false := beq_eq_false_iff_ne.mpr hpne
    set nu : UserRec :=
      ⟨nextId store, sanitizeInput (jsTrim u), sanitizeInput ve,
        beforeCreate salt (.plain p), time, time⟩ with hnu
    have husernu : nu.username = sanitizeInput (jsTrim u) := by rw [hnu]
    have hpassnu : nu.password = .hashed salt p := by
      rw [hnu]
      show beforeCreate salt (.plain p) = .hashed salt p
      simp [beforeCreate, hpb]
    have hq : store.find? (fun r => r.username == sanitizeInput (jsTrim u)) = none := by
      apply find?_eq_none_of_imp hf
      intro r hqr
      simp [dupPred, hqr]
    have happ : (store ++ [nu]).find?
        (fun r => r.username == sanitizeInput (jsTrim u)) = some nu := by
      rw [List.find?_append, hq]
      simp [List.find?_cons, husernu, Option.or]
    have hcmp : bcryptCompare p nu.password = true := by
      rw [hpassnu]
      simp [bcryptCompare]
    refine ⟨?_, ?_, ?_⟩
    · rw [login_eq_of_found (store ++ [nu]) u p nu hub hpb happ, if_pos hcmp]
    · rw [login_eq_of_found (store ++ [nu]) u p nu hub hpb happ, if_pos hcmp]
    · intro q hqp hqe
      have hqb : (q == "") = false := beq_eq_false_iff_ne.mpr hqe
      have hcmpq : bcryptCompare q nu.password = false := by
        rw [hpassnu]
        show (q == p) = false
        exact beq_eq_false_iff_ne.mpr hqp
      rw [login_eq_of_found (store ++ [nu]) u q nu hub hqb happ,
        if_neg (by simp [hcmpq])]
      rfl

theorem registrationLoginRoundTrip_witness :
    (login [⟨1, "alice", "alice@mail.com", .hashed 7 "Abcdef1!", 0, 0⟩]
        (some "alice") (some "Abcdef1!")).status = 200 ∧
    login [⟨1, "alice", "alice@mail.com", .hashed 7 "Abcdef1!", 0, 0⟩]
        (some "alice") (some "Zzz") = unauthorizedResp := by
  have h := registrationLoginRoundTrip [] "alice" "alice@mail.com" "Abcdef1!" 7 0
    ⟨201, true, "User registered successfully", some (1, "alice", "alice@mail.com", 0)⟩
    [⟨1, "alice", "alice@mail.com", .hashed 7 "Abcdef1!", 0, 0⟩]
    (by decide) rfl
  exact ⟨h.1, h.2.2 "Zzz" (by decide) (by decide)⟩

end ISProject
